import Mathlib

/-!
# CASTEL: box lowering helpers (`castel/engine/LLVMHelpers.hh`) and the box type
registry (`castel/gen/helper/type.hh`)

The helpers do not compute on boxes themselves: they drive an instruction builder
that emits target code.  The development therefore has two layers.

* Generation: the builder is an explicit state (`IRBuilder`) threaded through each
  helper, which is transcribed statement by statement from the C++ member function
  of the same name.  Operations of the builder that only compute a value (casts,
  address arithmetic, comparisons, constants) are represented by the term of the
  value they denote; operations that have an effect or a position in control flow
  (alloca, load, store, call, conditional branch, unreachable) are recorded in the
  basic block at the insertion point.  Whether the builder folds a computation on
  constants or inserts it as an instruction is therefore not distinguished.
* Execution: a small interpreter (`run`) gives the emitted blocks a meaning on an
  abstract memory of records with numbered fields, with the two runtime primitives
  `castelMalloc` and `castelCrash` consumed by name.
-/

namespace Castel

/-! ## Machine integers -/

/-- Implicit conversion of a signed integer to the 64-bit unsigned type
(`uint64_t`, `size_t` on an LP64 host): the value modulo `2^64`. -/
def toUInt64 (i : Int) : Nat := (i % 18446744073709551616).toNat

/-- Conversion of a `size_t` to `std::int32_t`: the low 32 bits, read as a signed
number. -/
def toInt32 (n : Nat) : Int :=
  if n % 4294967296 < 2147483648 then ((n % 4294967296 : Nat) : Int)
  else ((n % 4294967296 : Nat) : Int) - 4294967296

/-- The bits kept by `llvm::APInt( numBits, val )` for an unsigned 64-bit `val`. -/
def APInt (numBits : Nat) (val : Nat) : Nat := val % 2 ^ numBits

/-- Unsigned subtraction in `size_t`: `a - b` modulo `2^64`. -/
def subSizeT (a b : Nat) : Nat := (a % 18446744073709551616 + 18446744073709551616
  - b % 18446744073709551616) % 18446744073709551616

/-! ## Target types and values -/

/-- A handle on a target type as held in an `llvm::Type *`; `null` is the null
handle, which is what a failed lookup by name returns. -/
inductive TypePtr where
  | null
  | int (bits : Nat)
  | double
  | struct (name : String)
  | ptr (pointee : TypePtr)
  | array (elem : TypePtr) (count : Nat)
  | func (ret : TypePtr) (params : List TypePtr) (varArg : Bool)

mutual
/-- A type handle is usable when no null handle occurs in it. -/
def TypePtr.valid : TypePtr → Bool
  | .null => false
  | .int _ => true
  | .double => true
  | .struct _ => true
  | .ptr t => t.valid
  | .array t _ => t.valid
  | .func r ps _ => r.valid && TypePtr.validAll ps
/-- Every handle of a parameter list is usable. -/
def TypePtr.validAll : List TypePtr → Bool
  | [] => true
  | t :: ts => t.valid && TypePtr.validAll ts
end

/-- A function of the target module (`llvm::Function`): its name and the number of
its declared parameters (`arg_size()`). -/
structure Function where
  name : String
  argSize : Nat
deriving DecidableEq, Repr

/-- A value handle (`llvm::Value *`).  `null` is the C++ null pointer (no value at
all), `constNullPtr` the target constant `ConstantPointerNull`.  `param n` is a value
produced outside the helpers (an argument of the function being generated). -/
inductive Value where
  | null
  | param (n : Nat)
  | constInt (bits : Nat) (v : Nat)
  | constFP (bits : Nat)
  | constNullPtr (ty : TypePtr)
  | func (f : Function)
  | inst (id : Nat)
  | bitcast (v : Value) (ty : TypePtr)
  | ptrToInt (v : Value) (ty : TypePtr)
  | gep (base : Value) (idx : List Int)
  | icmpNE (a b : Value)

/-- Instructions recorded in a basic block.  Those that produce a value carry the
identifier under which `Value.inst` refers to it. -/
inductive Instr where
  | alloca (id : Nat) (ty : TypePtr)
  | load (id : Nat) (ptr : Value)
  | store (val : Value) (ptr : Value)
  | call (id : Nat) (callee : Value) (args : List Value)
  | condBr (cond : Value) (ifTrue : Nat) (ifFalse : Nat)
  | unreachable

/-- A basic block: its name and the instructions inserted so far. -/
structure BasicBlock where
  name : String
  instrs : List Instr

/-! ## Context, module, builder -/

/-- The part of `llvm::LLVMContext` used here: the names of the registered named
aggregates. -/
structure LLVMContext where
  namedStructTypes : List String

/-- The part of `llvm::Module` used here: its context and its functions. -/
structure Module where
  context : LLVMContext
  functions : List Function

/-- Lookup `Module::getTypeByName`: the named aggregate, or the null handle when no
aggregate of that name is registered. -/
def Module.getTypeByName (m : Module) (name : String) : TypePtr :=
  if m.context.namedStructTypes.contains name then TypePtr.struct name else TypePtr.null

/-- Lookup `Module::getFunction`: the function of that name, or the null pointer. -/
def Module.getFunction (m : Module) (name : String) : Value :=
  match m.functions.find? (fun f => f.name == name) with
  | some f => Value.func f
  | none => Value.null

/-- State of the instruction builder together with the function under
construction.  `blocks` holds every basic block created so far and a block is
referred to by its position there (its identity); `layout` is the basic block list
of the function, in order; `insertBlock` is the insertion point, always at the end
of that block. -/
structure IRBuilder where
  blocks : List BasicBlock
  layout : List Nat
  insertBlock : Nat
  nextId : Nat

namespace IRBuilder

/-- A function with one empty entry block, the builder positioned in it. -/
def start : IRBuilder :=
  { blocks := [{ name := "entry", instrs := [] }], layout := [0], insertBlock := 0, nextId := 0 }

/-- Appends an instruction at the insertion point. -/
def insert (b : IRBuilder) (i : Instr) : IRBuilder :=
  { b with blocks :=
      (List.modify (fun bb => { bb with instrs := bb.instrs ++ [i] }) b.insertBlock b.blocks) }

/-- Builder operation `CreateAlloca( type )`. -/
def createAlloca (b : IRBuilder) (type : TypePtr) : Value × IRBuilder :=
  (Value.inst b.nextId, { (b.insert (Instr.alloca b.nextId type)) with nextId := b.nextId + 1 })

/-- Builder operation `CreateLoad( ptr )`. -/
def createLoad (b : IRBuilder) (ptr : Value) : Value × IRBuilder :=
  (Value.inst b.nextId, { (b.insert (Instr.load b.nextId ptr)) with nextId := b.nextId + 1 })

/-- Builder operation `CreateStore( val, ptr )`. -/
def createStore (b : IRBuilder) (val ptr : Value) : IRBuilder :=
  b.insert (Instr.store val ptr)

/-- Builder operation `CreateCall( callee, args )`. -/
def createCall (b : IRBuilder) (callee : Value) (args : List Value) : Value × IRBuilder :=
  (Value.inst b.nextId, { (b.insert (Instr.call b.nextId callee args)) with nextId := b.nextId + 1 })

/-- Builder operation `CreateCondBr( cond, ifTrue, ifFalse )`. -/
def createCondBr (b : IRBuilder) (cond : Value) (ifTrue ifFalse : Nat) : IRBuilder :=
  b.insert (Instr.condBr cond ifTrue ifFalse)

/-- Builder operation `CreateUnreachable( )`. -/
def createUnreachable (b : IRBuilder) : IRBuilder :=
  b.insert Instr.unreachable

/-- Builder operation `BasicBlock::Create( context, name, parent )`: a new empty block, appended to
the function when `attach` is set (a parent is given), left detached otherwise. -/
def createBlock (b : IRBuilder) (name : String) (attach : Bool) : Nat × IRBuilder :=
  (b.blocks.length,
    { b with blocks := b.blocks ++ [{ name := name, instrs := [] }],
             layout := if attach then b.layout ++ [b.blocks.length] else b.layout })

/-- Builder operation `outerFunction->getBasicBlockList( ).push_back( block )`. -/
def pushBack (b : IRBuilder) (block : Nat) : IRBuilder :=
  { b with layout := b.layout ++ [block] }

/-- Builder operation `SetInsertPoint( block )`. -/
def setInsertPoint (b : IRBuilder) (block : Nat) : IRBuilder :=
  { b with insertBlock := block }

/-- The instructions of the block at the insertion point. -/
def currentCode (b : IRBuilder) : List Instr :=
  match b.blocks[b.insertBlock]? with
  | some bb => bb.instrs
  | none => []

/-- The instructions of a given block. -/
def codeOf (b : IRBuilder) (block : Nat) : List Instr :=
  match b.blocks[block]? with
  | some bb => bb.instrs
  | none => []

end IRBuilder

/-! ## The helpers of `LLVMHelpers.hh` -/

/-- Modelled from the spec: the closed enumeration of box kinds, `engine::Box::Type`
of `castel/engine/Box.hh`, which is not part of the available sources.  The helpers
name the number kind `Double`. -/
inductive BoxType where
  | Null | Undefined | Bool | Double | String | List | Dict | Function | Object | Class
  | Binding
deriving DecidableEq, Repr

/-- The helper object.  `module` is `mModule` (its context is `mLLVMContext`); the
builder `mIRBuilder` is threaded explicitly.  Two declarations the helpers use are
not part of the available sources and are taken as parameters: `engineBox`, the
target type that `mpllvm::get< engine::Box >` resolves to
(`castel/utils/mpllvmExtensions.hh`), and `typeCode`, the `std::int32_t` value of
each enumerator of `engine::Box::Type` (`castel/engine/Box.hh`). -/
structure LLVMHelpers where
  module : Module
  engineBox : TypePtr
  typeCode : BoxType → Int

namespace LLVMHelpers

/-- Target type of `mpllvm::get< engine::Box * >`. -/
def boxPtrTy (h : LLVMHelpers) : TypePtr := TypePtr.ptr h.engineBox

/-- Target type of `mpllvm::get< engine::Box *** >`. -/
def environmentTy (h : LLVMHelpers) : TypePtr := TypePtr.ptr (TypePtr.ptr (TypePtr.ptr h.engineBox))

/-- Target type of `mpllvm::get< void * >` and `mpllvm::get< char const * >`: a byte pointer. -/
def bytePtrTy : TypePtr := TypePtr.ptr (TypePtr.int 8)

/-- Transcription of `LLVMHelpers::sizeOf`. -/
def sizeOf (_h : LLVMHelpers) (type : TypePtr) : Value :=
  let targetType := TypePtr.int 32
  let nullPointer := Value.constNullPtr (TypePtr.ptr type)
  Value.ptrToInt (Value.gep nullPointer [1]) targetType

/-- Transcription of `LLVMHelpers::allocateObject( type, allocateOnTheStack )`. -/
def allocateObject (h : LLVMHelpers) (type : TypePtr) (allocateOnTheStack : Bool)
    (b : IRBuilder) : Value × IRBuilder :=
  if allocateOnTheStack then
    b.createAlloca type
  else
    let castelMalloc := h.module.getFunction "castelMalloc"
    let r := b.createCall castelMalloc [h.sizeOf type]
    (Value.bitcast r.1 (TypePtr.ptr type), r.2)

/-- Transcription of `LLVMHelpers::allocateArray( type, count, allocateOnTheStack )`.
The `int` count is converted to the `uint64_t` element count of
`llvm::ArrayType::get`. -/
def allocateArray (h : LLVMHelpers) (type : TypePtr) (count : Int) (allocateOnTheStack : Bool)
    (b : IRBuilder) : Value × IRBuilder :=
  let arrayType := TypePtr.array type (toUInt64 count)
  let r := h.allocateObject arrayType allocateOnTheStack b
  (Value.gep r.1 [0, 0], r.2)

/-- Transcription of `LLVMHelpers::boxToGeneric`. -/
def boxToGeneric (h : LLVMHelpers) (box : Value) : Value :=
  Value.bitcast box (TypePtr.ptr (h.module.getTypeByName "box"))

/-- Transcription of `LLVMHelpers::boxType< Type >`. -/
def boxType (h : LLVMHelpers) (type : BoxType) : Value :=
  Value.constInt 32 (APInt 32 (toUInt64 (h.typeCode type)))

/-- Transcription of `LLVMHelpers::forceBoxType< Type >`: the body is the comment
`security check here` followed by `return value;`. -/
def forceBoxType (_h : LLVMHelpers) (_type : BoxType) (value : Value) (b : IRBuilder) :
    Value × IRBuilder :=
  (value, b)

/-- The parameter list built between `START : crafts function type` and
`END : crafts function type` in `boxToFunction`: `push_back` of the environment
type, then `insert( begin( ), arity, ... )` of `arity` generic box types.  The list
is that of the code for an arity from 0 to `2^31 - 1`.  A negative arity converts to
a count of at least `2^64 - 2^31`, beyond what a vector can hold: there the C++
`insert` throws `std::length_error` and `boxToFunction` does not return, so the
list given here for a negative arity has no counterpart in the code. -/
def argumentsTypes (h : LLVMHelpers) (arity : Int) : List TypePtr :=
  let argumentsTypes : List TypePtr := []
  let argumentsTypes := argumentsTypes ++ [h.environmentTy]
  List.replicate (toUInt64 arity) h.boxPtrTy ++ argumentsTypes

/-- Transcription of `LLVMHelpers::boxToFunction( genericBox, arity )`. -/
def boxToFunction (h : LLVMHelpers) (genericBox : Value) (arity : Int) (b : IRBuilder) :
    Value × IRBuilder :=
  let b := (h.forceBoxType BoxType.Function genericBox b).2
  let functionBox := Value.bitcast genericBox (TypePtr.ptr (h.module.getTypeByName "box.function"))
  let arityIndex := Value.gep functionBox [0, 1]
  let r := b.createLoad arityIndex
  let functionArity := r.1
  let b := r.2
  let expectedArity := Value.constInt 32 (APInt 32 (toUInt64 arity))
  let arityCheck := Value.icmpNE functionArity expectedArity
  let r := b.createBlock "then" true
  let thenBranch := r.1
  let b := r.2
  let r := b.createBlock "finally" false
  let finallyBranch := r.1
  let b := r.2
  let b := b.createCondBr arityCheck thenBranch finallyBranch
  let b := b.setInsertPoint thenBranch
  let runtimeCastelCrash := h.module.getFunction "castelCrash"
  let errorMessage := Value.gep (Value.constNullPtr bytePtrTy) [0]
  let b := (b.createCall runtimeCastelCrash [errorMessage]).2
  let b := b.createUnreachable
  let b := b.pushBack finallyBranch
  let b := b.setInsertPoint finallyBranch
  let functionType := TypePtr.func h.boxPtrTy (h.argumentsTypes arity) false
  let functionIndex := Value.gep functionBox [0, 2]
  let r := b.createLoad functionIndex
  let genericFunctionPointer := r.1
  let b := r.2
  (Value.bitcast genericFunctionPointer (TypePtr.ptr functionType), b)

/-- The operand of the last store of `functionToBox`,
`environment ? environment : llvm::ConstantPointerNull::get( ... )`. -/
def environmentOrNull (h : LLVMHelpers) (environment : Value) : Value :=
  match environment with
  | Value.null => Value.constNullPtr h.environmentTy
  | e => e

/-- Transcription of `LLVMHelpers::functionToBox( llvmFunction, environment )`; the default argument
`environment = nullptr` is `Value.null`.  The statement guarded by
`environment == nullptr` builds a null constant and drops it (`_discarded`); the
last store chooses between the given environment and a null constant again. -/
def functionToBox (h : LLVMHelpers) (llvmFunction : Function) (environment : Value)
    (b : IRBuilder) : Value × IRBuilder :=
  let _discarded : Option Value :=
    match environment with
    | Value.null => some (Value.constNullPtr h.environmentTy)
    | _ => none
  let r := h.allocateObject (h.module.getTypeByName "box.function") false b
  let functionBox := r.1
  let b := r.2
  let typeIndex := Value.gep functionBox [0, 0]
  let arityIndex := Value.gep functionBox [0, 1]
  let functionIndex := Value.gep functionBox [0, 2]
  let environmentIndex := Value.gep functionBox [0, 3]
  let genericFunctionPointer := Value.bitcast (Value.func llvmFunction) bytePtrTy
  let b := b.createStore (h.boxType BoxType.Function) typeIndex
  let b := b.createStore (Value.constInt 32 (APInt 32 (subSizeT llvmFunction.argSize 1))) arityIndex
  let b := b.createStore genericFunctionPointer functionIndex
  let b := b.createStore (h.environmentOrNull environment) environmentIndex
  (h.boxToGeneric functionBox, b)

/-- Transcription of `LLVMHelpers::callFunctionBox( genericBox, arguments )`. -/
def callFunctionBox (h : LLVMHelpers) (genericBox : Value) (arguments : List Value)
    (b : IRBuilder) : Value × IRBuilder :=
  let r := h.boxToFunction genericBox (toInt32 arguments.length) b
  let llvmFunction := r.1
  let b := r.2
  let functionBox := Value.bitcast genericBox (TypePtr.ptr (h.module.getTypeByName "box.function"))
  let environmentIndex := Value.gep functionBox [0, 3]
  let r := b.createLoad environmentIndex
  let environment := r.1
  let b := r.2
  let duplicatedArguments : List Value := []
  let duplicatedArguments := duplicatedArguments ++ [environment]
  let duplicatedArguments := duplicatedArguments ++ arguments
  b.createCall llvmFunction duplicatedArguments

/-- Transcription of `LLVMHelpers::boxToDouble( genericBox )`. -/
def boxToDouble (h : LLVMHelpers) (genericBox : Value) (b : IRBuilder) : Value × IRBuilder :=
  let b := (h.forceBoxType BoxType.Double genericBox b).2
  let doubleBox := Value.bitcast genericBox (TypePtr.ptr (h.module.getTypeByName "box.double"))
  let valueIndex := Value.gep doubleBox [0, 1]
  b.createLoad valueIndex

/-- Transcription of `LLVMHelpers::doubleToBox( llvm::Value * value )`, the master helper. -/
def doubleToBox (h : LLVMHelpers) (value : Value) (b : IRBuilder) : Value × IRBuilder :=
  let r := h.allocateObject (h.module.getTypeByName "box.double") false b
  let doubleBox := r.1
  let b := r.2
  let typeIndex := Value.gep doubleBox [0, 0]
  let valueIndex := Value.gep doubleBox [0, 1]
  let b := b.createStore (h.boxType BoxType.Double) typeIndex
  let b := b.createStore value valueIndex
  (h.boxToGeneric doubleBox, b)

end LLVMHelpers

/-! ## The type registry of `type.hh` -/

/-- Transcription of `llvm::TypeBuilder< castel::runtime::Box, XCompile >::get( context )`: a
temporary module is made on the context and asked for the aggregate named `Box`. -/
def TypeBuilder_Box_get (context : LLVMContext) : TypePtr :=
  let tempModule : Module := { context := context, functions := [] }
  tempModule.getTypeByName "Box"

/-- Transcription of `castel::gen::helper::type< T >( context )` for each box class `T` of
`castel/runtime/boxes`: every specialisation derives from the one for
`castel::runtime::Box`. -/
def gen_helper_type (_kind : BoxType) (context : LLVMContext) : TypePtr :=
  TypeBuilder_Box_get context

/-! ## Execution of emitted code -/

/-- A value at run time.  Addresses inside records are abstract: `addr r f` is
field `f` of record `r` (a pointer to a record is `addr r 0`); `raw a` is an address
known only as a number, `raw 0` being the null address; `code name` is the address
of the native function of that name.  Fields are numbered, not laid out in bytes:
reading a record through the aggregate of another kind tells whether the code
traps, not which bytes a target would deliver. -/
inductive RVal where
  | int (v : Nat)
  | fp (bits : Nat)
  | addr (record : Nat) (field : Nat)
  | raw (a : Nat)
  | code (name : String)
  | undef
deriving DecidableEq, Repr

/-- Memory: `next` records have been allocated; `cells` holds the fields written so
far, most recent first. -/
structure Memory where
  next : Nat
  cells : List ((Nat × Nat) × RVal)
deriving DecidableEq, Repr

namespace Memory

/-- Reads a field of an allocated record; a field never written holds `undef`. -/
def load (mem : Memory) (r f : Nat) : Option RVal :=
  if r < mem.next then
    match mem.cells.lookup (r, f) with
    | some v => some v
    | none => some RVal.undef
  else none

/-- Writes a field of an allocated record. -/
def store (mem : Memory) (r f : Nat) (v : RVal) : Option Memory :=
  if r < mem.next then some { mem with cells := ((r, f), v) :: mem.cells } else none

/-- Allocates a fresh record. -/
def alloc (mem : Memory) : Nat × Memory :=
  (mem.next, { mem with next := mem.next + 1 })

end Memory

/-- What the emitted code runs against: the values of the outside parameters, the
byte size the target gives each type, and the result of each native function other
than the two runtime primitives. -/
structure Runtime where
  params : Nat → RVal
  sizeOfType : TypePtr → Nat
  native : String → List RVal → RVal

/-- Machine state: the values of the instructions executed so far, the memory, and
the calls made so far (callee name and arguments), oldest first. -/
structure Machine where
  regs : List (Nat × RVal)
  mem : Memory
  calls : List (String × List RVal)
deriving DecidableEq, Repr

/-- How a run ends: control leaves the emitted code at the end of a block that has
no terminator yet (where generation continues), the trap primitive is entered and
the process is terminated, an `unreachable` is executed, the code is ill-formed, or
the step budget is exhausted. -/
inductive Outcome where
  | fellThrough (block : Nat) (m : Machine)
  | trapped (m : Machine)
  | undefinedBehaviour (m : Machine)
  | stuck
  | outOfFuel
deriving DecidableEq, Repr

/-- Result of one instruction or of one block. -/
inductive Step where
  | next (m : Machine)
  | jump (block : Nat) (m : Machine)
  | halt (o : Outcome)

/-- The static type of a value, where the value itself determines it. -/
def Value.typeOf : Value → TypePtr
  | .constNullPtr ty => ty
  | .bitcast _ ty => ty
  | .ptrToInt _ ty => ty
  | .constInt bits _ => TypePtr.int bits
  | .constFP _ => TypePtr.double
  | _ => TypePtr.null

/-- The integer a raw address converts to. -/
def ptrToIntVal (v : Option RVal) (ty : TypePtr) : Option RVal :=
  match v, ty with
  | some (RVal.raw a), TypePtr.int bits => some (RVal.int (a % 2 ^ bits))
  | _, _ => none

/-- Address arithmetic.  On a pointer to a record, indices `[0, k]` select field
`k`; on a raw address, a single index `[i]` advances by `i` elements of the pointee
type `baseTy` points to. -/
def gepVal (rt : Runtime) (baseTy : TypePtr) (v : Option RVal) (idx : List Int) : Option RVal :=
  match v, idx with
  | some (RVal.addr r f), [i, k] =>
    if f = 0 ∧ i = 0 ∧ 0 ≤ k then some (RVal.addr r k.toNat) else none
  | some (RVal.raw a), [i] =>
    match baseTy with
    | TypePtr.ptr t => if 0 ≤ i then some (RVal.raw (a + i.toNat * rt.sizeOfType t)) else none
    | _ => none
  | _, _ => none

/-- Integer comparison for inequality: 1 when the operands differ. -/
def icmpNEVal (a b : Option RVal) : Option RVal :=
  match a, b with
  | some (RVal.int x), some (RVal.int y) => some (RVal.int (if x = y then 0 else 1))
  | _, _ => none

/-- Evaluation of a value term.  A cast to or a constant of an unusable type, and
the C++ null pointer, have no value. -/
def eval (rt : Runtime) (m : Machine) : Value → Option RVal
  | .null => none
  | .param n => some (rt.params n)
  | .constInt bits v => some (RVal.int (v % 2 ^ bits))
  | .constFP bits => some (RVal.fp bits)
  | .constNullPtr ty => if ty.valid then some (RVal.raw 0) else none
  | .func f => some (RVal.code f.name)
  | .inst id => m.regs.lookup id
  | .bitcast v ty => if ty.valid then eval rt m v else none
  | .ptrToInt v ty => ptrToIntVal (eval rt m v) ty
  | .gep base idx => gepVal rt base.typeOf (eval rt m base) idx
  | .icmpNE a b => icmpNEVal (eval rt m a) (eval rt m b)

/-- Evaluation of the operands of a call, left to right. -/
def evalArgs (rt : Runtime) (m : Machine) : List Value → Option (List RVal)
  | [] => some []
  | a :: rest => (eval rt m a).bind (fun v => (evalArgs rt m rest).map (fun vs => v :: vs))

/-- Modelled from the spec: the two external runtime primitives, resolved by name in
the target module, whose code is not part of the available sources.  The heap
allocation primitive `castelMalloc` takes a byte count and returns the address of
fresh storage; the fatal-trap primitive `castelCrash` takes a message address and
never returns, the process being terminated.  Any other name is not a primitive. -/
def callPrimitive (name : String) (id : Nat) (vs : List RVal) (m : Machine) : Option Step :=
  if name = "castelCrash" then
    some (Step.halt (Outcome.trapped { m with calls := m.calls ++ [(name, vs)] }))
  else if name = "castelMalloc" then
    let a := m.mem.alloc
    some (Step.next { regs := (id, RVal.addr a.1 0) :: m.regs, mem := a.2,
                      calls := m.calls ++ [(name, vs)] })
  else none

/-- One instruction.  A call is resolved by the name of the callee: a runtime
primitive does what `callPrimitive` says, any other native function returns what
the runtime says; every call is recorded. -/
def execInstr (rt : Runtime) (m : Machine) : Instr → Step
  | .alloca id ty =>
    if ty.valid then
      let a := m.mem.alloc
      Step.next { m with regs := (id, RVal.addr a.1 0) :: m.regs, mem := a.2 }
    else Step.halt Outcome.stuck
  | .load id p =>
    match eval rt m p with
    | some (RVal.addr r f) =>
      match m.mem.load r f with
      | some v => Step.next { m with regs := (id, v) :: m.regs }
      | none => Step.halt Outcome.stuck
    | _ => Step.halt Outcome.stuck
  | .store v p =>
    match eval rt m v, eval rt m p with
    | some x, some (RVal.addr r f) =>
      match m.mem.store r f x with
      | some mem => Step.next { m with mem := mem }
      | none => Step.halt Outcome.stuck
    | _, _ => Step.halt Outcome.stuck
  | .call id callee args =>
    match eval rt m callee, evalArgs rt m args with
    | some (RVal.code name), some vs =>
      match callPrimitive name id vs m with
      | some s => s
      | none =>
        Step.next { m with regs := (id, rt.native name vs) :: m.regs,
                           calls := m.calls ++ [(name, vs)] }
    | _, _ => Step.halt Outcome.stuck
  | .condBr c t e =>
    match eval rt m c with
    | some (RVal.int n) => Step.jump (if n = 0 then e else t) m
    | _ => Step.halt Outcome.stuck
  | .unreachable => Step.halt (Outcome.undefinedBehaviour m)

/-- The instructions of one block in order; `Step.next` means the end of the block
was reached. -/
def execBlock (rt : Runtime) : List Instr → Machine → Step
  | [], m => Step.next m
  | i :: rest, m =>
    match execInstr rt m i with
    | Step.next m1 => execBlock rt rest m1
    | s => s

/-- Runs from the start of a block, following at most `fuel` blocks. -/
def run (rt : Runtime) (blocks : List BasicBlock) : Nat → Nat → Machine → Outcome
  | 0, _, _ => Outcome.outOfFuel
  | fuel + 1, l, m =>
    match blocks[l]? with
    | none => Outcome.stuck
    | some bb =>
      match execBlock rt bb.instrs m with
      | Step.next m1 => Outcome.fellThrough l m1
      | Step.jump l1 m1 => run rt blocks fuel l1 m1
      | Step.halt o => o

/-- Runs the function under construction from its first block, with a budget of
one step per block created. -/
def execute (rt : Runtime) (b : IRBuilder) (m : Machine) : Outcome :=
  run rt b.blocks b.blocks.length (b.layout.headD 0) m

/-- The instruction is a store through a pointer to field `k` of a record. -/
def Instr.isStoreToField (k : Int) : Instr → Bool
  | .store _ (.gep _ [i, j]) => i == 0 && j == k
  | _ => false

/-- A module with the three aggregates and the two runtime primitives, and one
native closure body of three parameters (the environment and two explicit ones). -/
def sampleModule : Module :=
  { context := { namedStructTypes := ["box", "box.function", "box.double"] },
    functions := [⟨"castelMalloc", 1⟩, ⟨"castelCrash", 1⟩, ⟨"closure", 3⟩] }

/-- Enumerators numbered in the order of the enumeration. -/
def sampleTypeCode : BoxType → Int
  | .Null => 0 | .Undefined => 1 | .Bool => 2 | .Double => 3 | .String => 4 | .List => 5
  | .Dict => 6 | .Function => 7 | .Object => 8 | .Class => 9 | .Binding => 10

/-- Helpers over the sample module. -/
def sampleHelpers : LLVMHelpers :=
  { module := sampleModule, engineBox := TypePtr.struct "box", typeCode := sampleTypeCode }

/-- A runtime in which parameter 0 is a pointer to record 0 and every other
parameter `n` is the raw address `100 + n`. -/
def sampleRuntime : Runtime :=
  { params := fun n => if n = 0 then RVal.addr 0 0 else RVal.raw (100 + n),
    sizeOfType := fun _ => 24,
    native := fun _ _ => RVal.raw 7 }

/-- A machine with nothing allocated. -/
def emptyMachine : Machine :=
  { regs := [], mem := { next := 0, cells := [] }, calls := [] }

end Castel

namespace Castel
open LLVMHelpers IRBuilder

/-! ## Auxiliary facts -/

theorem exists_block_of_valid (b : IRBuilder) (hb : b.insertBlock < b.blocks.length) :
    ∃ bb, b.blocks[b.insertBlock]? = some bb :=
  ⟨b.blocks[b.insertBlock], List.getElem?_eq_getElem hb⟩

theorem toUInt64_natCast (n : Nat) (hn : n < 18446744073709551616) :
    toUInt64 (n : Int) = n := by
  unfold toUInt64
  omega

theorem argumentsTypes_eq (h : LLVMHelpers) (n : Nat) (hn : n < 2147483648) :
    h.argumentsTypes (n : Int) = List.replicate n h.boxPtrTy ++ [h.environmentTy] := by
  unfold LLVMHelpers.argumentsTypes
  rw [toUInt64_natCast n (by omega)]
  rfl

theorem getElem_append_pair_snd {α : Type} (l : List α) (x y : α) (n : Nat)
    (hn : l.length = n) (hlt : n + 1 < (l ++ [x, y]).length) : (l ++ [x, y])[n + 1] = y := by
  subst hn
  rw [List.getElem_append_right (by omega)]
  simp

/-- C9. On a builder with a valid insertion point, `allocateObject( T, true )`
appends exactly one `alloca` of `T` (and hence no call) to the current block and
returns it, while `allocateObject( T, false )` appends exactly one call, whose callee
is `castelMalloc` as the module resolves it and whose only operand is `sizeOf( T )`, and returns
the result of that call cast to a pointer to `T`; no other block changes. -/
theorem allocateObject_stack_or_heap (h : LLVMHelpers) (T : TypePtr) (b : IRBuilder)
    (hb : b.insertBlock < b.blocks.length) :
    ((h.allocateObject T true b).2.currentCode = b.currentCode ++ [Instr.alloca b.nextId T]
      ∧ (h.allocateObject T true b).1 = Value.inst b.nextId
      ∧ ∀ k, k ≠ b.insertBlock → (h.allocateObject T true b).2.codeOf k = b.codeOf k)
    ∧ ((h.allocateObject T false b).2.currentCode
          = b.currentCode ++
              [Instr.call b.nextId (h.module.getFunction "castelMalloc") [h.sizeOf T]]
      ∧ (h.allocateObject T false b).1 = Value.bitcast (Value.inst b.nextId) (TypePtr.ptr T)
      ∧ ∀ k, k ≠ b.insertBlock → (h.allocateObject T false b).2.codeOf k = b.codeOf k) := by
  obtain ⟨bb, hbb⟩ := exists_block_of_valid b hb
  refine ⟨⟨?_, ?_, ?_⟩, ?_, ?_, ?_⟩
  · simp [allocateObject, createAlloca, currentCode, IRBuilder.insert, List.getElem?_modify, hbb]
  · simp [allocateObject, createAlloca]
  · intro k hk
    cases hk2 : b.blocks[k]? <;>
      simp [allocateObject, createAlloca, codeOf, IRBuilder.insert, List.getElem?_modify, hk2,
        Ne.symm hk]
  · simp [allocateObject, createCall, currentCode, IRBuilder.insert, List.getElem?_modify, hbb]
  · simp [allocateObject, createCall]
  · intro k hk
    cases hk2 : b.blocks[k]? <;>
      simp [allocateObject, createCall, codeOf, IRBuilder.insert, List.getElem?_modify, hk2,
        Ne.symm hk]

/-- Witness of C9 on a fresh function and the aggregate `box.double`. -/
theorem allocateObject_stack_or_heap_witness :
    IRBuilder.start.insertBlock < IRBuilder.start.blocks.length
    ∧ (sampleHelpers.allocateObject (TypePtr.struct "box.double") true IRBuilder.start).2.currentCode
        = IRBuilder.start.currentCode ++ [Instr.alloca 0 (TypePtr.struct "box.double")]
    ∧ (sampleHelpers.allocateObject (TypePtr.struct "box.double") false IRBuilder.start).2.currentCode
        = IRBuilder.start.currentCode ++
            [Instr.call 0 (sampleHelpers.module.getFunction "castelMalloc")
              [sampleHelpers.sizeOf (TypePtr.struct "box.double")]] :=
  ⟨by decide,
   (allocateObject_stack_or_heap sampleHelpers (TypePtr.struct "box.double") IRBuilder.start
      (by decide)).1.1,
   (allocateObject_stack_or_heap sampleHelpers (TypePtr.struct "box.double") IRBuilder.start
      (by decide)).2.1⟩

/-- The code `functionToBox` appends to the current block and the value it returns. -/
theorem functionToBox_code (h : LLVMHelpers) (f : Function) (e : Value) (b : IRBuilder)
    (hb : b.insertBlock < b.blocks.length) :
    (h.functionToBox f e b).2.currentCode = b.currentCode ++
      [Instr.call b.nextId (h.module.getFunction "castelMalloc")
         [h.sizeOf (h.module.getTypeByName "box.function")],
       Instr.store (h.boxType BoxType.Function)
         (Value.gep (Value.bitcast (Value.inst b.nextId)
           (TypePtr.ptr (h.module.getTypeByName "box.function"))) [0, 0]),
       Instr.store (Value.constInt 32 (APInt 32 (subSizeT f.argSize 1)))
         (Value.gep (Value.bitcast (Value.inst b.nextId)
           (TypePtr.ptr (h.module.getTypeByName "box.function"))) [0, 1]),
       Instr.store (Value.bitcast (Value.func f) bytePtrTy)
         (Value.gep (Value.bitcast (Value.inst b.nextId)
           (TypePtr.ptr (h.module.getTypeByName "box.function"))) [0, 2]),
       Instr.store (h.environmentOrNull e)
         (Value.gep (Value.bitcast (Value.inst b.nextId)
           (TypePtr.ptr (h.module.getTypeByName "box.function"))) [0, 3])]
    ∧ (h.functionToBox f e b).1 = h.boxToGeneric (Value.bitcast (Value.inst b.nextId)
           (TypePtr.ptr (h.module.getTypeByName "box.function"))) := by
  obtain ⟨bb, hbb⟩ := exists_block_of_valid b hb
  simp [functionToBox, allocateObject, createStore, createCall, currentCode, IRBuilder.insert,
    List.getElem?_modify, hbb]

/-- The code `doubleToBox` appends to the current block and the value it returns. -/
theorem doubleToBox_code (h : LLVMHelpers) (value : Value) (b : IRBuilder)
    (hb : b.insertBlock < b.blocks.length) :
    (h.doubleToBox value b).2.currentCode = b.currentCode ++
      [Instr.call b.nextId (h.module.getFunction "castelMalloc")
         [h.sizeOf (h.module.getTypeByName "box.double")],
       Instr.store (h.boxType BoxType.Double)
         (Value.gep (Value.bitcast (Value.inst b.nextId)
           (TypePtr.ptr (h.module.getTypeByName "box.double"))) [0, 0]),
       Instr.store value
         (Value.gep (Value.bitcast (Value.inst b.nextId)
           (TypePtr.ptr (h.module.getTypeByName "box.double"))) [0, 1])]
    ∧ (h.doubleToBox value b).1 = h.boxToGeneric (Value.bitcast (Value.inst b.nextId)
           (TypePtr.ptr (h.module.getTypeByName "box.double"))) := by
  obtain ⟨bb, hbb⟩ := exists_block_of_valid b hb
  simp [doubleToBox, allocateObject, createStore, createCall, currentCode, IRBuilder.insert,
    List.getElem?_modify, hbb]

/-- C5. On a builder with a valid insertion point, the code `functionToBox( f, e )`
appends contains exactly one store to field 3 of the new function box (the box it
returns, widened); the value stored is the null environment constant when no
environment is given (`e` is the null pointer) and `e` itself otherwise. -/
theorem functionToBox_stores_environment_once (h : LLVMHelpers) (f : Function) (e : Value)
    (b : IRBuilder) (hb : b.insertBlock < b.blocks.length) :
    ∃ code functionBox,
      (h.functionToBox f e b).2.currentCode = b.currentCode ++ code
      ∧ (h.functionToBox f e b).1 = h.boxToGeneric functionBox
      ∧ (e = Value.null → code.filter (Instr.isStoreToField 3)
            = [Instr.store (Value.constNullPtr h.environmentTy) (Value.gep functionBox [0, 3])])
      ∧ (e ≠ Value.null → code.filter (Instr.isStoreToField 3)
            = [Instr.store e (Value.gep functionBox [0, 3])]) := by
  obtain ⟨hcode, hval⟩ := functionToBox_code h f e b hb
  refine ⟨_, _, hcode, hval, ?_, ?_⟩
  · intro he
    subst he
    simp [Instr.isStoreToField, environmentOrNull]
  · intro he
    cases e <;> simp_all [Instr.isStoreToField, environmentOrNull]

/-- Witness of C5: no environment given, on a fresh function. -/
theorem functionToBox_stores_environment_once_witness :
    IRBuilder.start.insertBlock < IRBuilder.start.blocks.length
    ∧ ∃ code functionBox,
      (sampleHelpers.functionToBox ⟨"closure", 3⟩ Value.null IRBuilder.start).2.currentCode
        = IRBuilder.start.currentCode ++ code
      ∧ (sampleHelpers.functionToBox ⟨"closure", 3⟩ Value.null IRBuilder.start).1
        = sampleHelpers.boxToGeneric functionBox
      ∧ code.filter (Instr.isStoreToField 3)
          = [Instr.store (Value.constNullPtr sampleHelpers.environmentTy)
              (Value.gep functionBox [0, 3])] :=
  ⟨by decide,
   (fun ⟨code, functionBox, h1, h2, h3, _⟩ => ⟨code, functionBox, h1, h2, h3 rfl⟩)
     (functionToBox_stores_environment_once sampleHelpers ⟨"closure", 3⟩ Value.null
       IRBuilder.start (by decide))⟩

/-- C4. On a builder with a valid insertion point, whatever the generic box and the
argument sequence, the block in which `callFunctionBox` leaves the builder holds the load of the code
address (field 2), the load of the environment (field 3) and one call of the loaded
code address; the call has one operand more than there are arguments, operand 0 is
the loaded environment, operand `i + 1` is argument `i`, and the value returned is
that call. -/
theorem callFunctionBox_operands (h : LLVMHelpers) (genericBox : Value) (arguments : List Value)
    (b : IRBuilder) (hb : b.insertBlock < b.blocks.length) :
    ∃ codeId environmentId callId functionType operands,
      (h.callFunctionBox genericBox arguments b).2.currentCode =
        [Instr.load codeId (Value.gep (Value.bitcast genericBox
            (TypePtr.ptr (h.module.getTypeByName "box.function"))) [0, 2]),
         Instr.load environmentId (Value.gep (Value.bitcast genericBox
            (TypePtr.ptr (h.module.getTypeByName "box.function"))) [0, 3]),
         Instr.call callId (Value.bitcast (Value.inst codeId) (TypePtr.ptr functionType))
            operands]
      ∧ (h.callFunctionBox genericBox arguments b).1 = Value.inst callId
      ∧ codeId < environmentId ∧ environmentId < callId
      ∧ operands.length = arguments.length + 1
      ∧ operands[0]? = some (Value.inst environmentId)
      ∧ ∀ i, i < arguments.length → operands[i + 1]? = arguments[i]? := by
  refine ⟨b.nextId + 2, b.nextId + 3, b.nextId + 4,
    TypePtr.func h.boxPtrTy (h.argumentsTypes (toInt32 arguments.length)) false,
    Value.inst (b.nextId + 3) :: arguments, ?_, ?_, ?_, ?_, ?_, ?_, ?_⟩
  · have h1 : b.insertBlock ≠ b.blocks.length + 1 := by omega
    simp [callFunctionBox, boxToFunction, forceBoxType, createBlock, createCondBr,
      createUnreachable, pushBack, setInsertPoint, createLoad, createCall, currentCode,
      IRBuilder.insert, List.getElem?_modify, h1, getElem_append_pair_snd]
  · simp [callFunctionBox, boxToFunction, forceBoxType, createBlock, createCondBr,
      createUnreachable, pushBack, setInsertPoint, createLoad, createCall, IRBuilder.insert]
  · omega
  · omega
  · simp
  · simp
  · intro i _
    simp

/-- Witness of C4: two arguments, on a fresh function. -/
theorem callFunctionBox_operands_witness :
    IRBuilder.start.insertBlock < IRBuilder.start.blocks.length
    ∧ ∃ codeId environmentId callId functionType operands,
      (sampleHelpers.callFunctionBox (Value.param 0) [Value.param 1, Value.param 2]
          IRBuilder.start).2.currentCode =
        [Instr.load codeId (Value.gep (Value.bitcast (Value.param 0)
            (TypePtr.ptr (sampleHelpers.module.getTypeByName "box.function"))) [0, 2]),
         Instr.load environmentId (Value.gep (Value.bitcast (Value.param 0)
            (TypePtr.ptr (sampleHelpers.module.getTypeByName "box.function"))) [0, 3]),
         Instr.call callId (Value.bitcast (Value.inst codeId) (TypePtr.ptr functionType))
            operands]
      ∧ (sampleHelpers.callFunctionBox (Value.param 0) [Value.param 1, Value.param 2]
          IRBuilder.start).1 = Value.inst callId
      ∧ operands.length = 3
      ∧ operands[0]? = some (Value.inst environmentId)
      ∧ operands[1]? = some (Value.param 1)
      ∧ operands[2]? = some (Value.param 2) :=
  ⟨by decide,
   (fun ⟨c, e, k, t, ops, h1, h2, _, _, h5, h6, h7⟩ =>
      ⟨c, e, k, t, ops, h1, h2, h5, h6, h7 0 (by decide), h7 1 (by decide)⟩)
     (callFunctionBox_operands sampleHelpers (Value.param 0) [Value.param 1, Value.param 2]
       IRBuilder.start (by decide))⟩

/-- The parameter list `boxToFunction` builds for an arity in the `std::int32_t`
range: the environment type sits after the `n` generic box types, at position `n`. -/
theorem argumentsTypes_environment_last (h : LLVMHelpers) (n : Nat) (hn : n < 2147483648) :
    (h.argumentsTypes (n : Int)).length = n + 1
    ∧ (h.argumentsTypes (n : Int))[n]? = some h.environmentTy
    ∧ ∀ i, i < n → (h.argumentsTypes (n : Int))[i]? = some h.boxPtrTy := by
  rw [argumentsTypes_eq h n hn]
  refine ⟨by simp, ?_, ?_⟩
  · rw [List.getElem?_append_right (by simp)]
    simp
  · intro i hi
    rw [List.getElem?_append_left (by simpa using hi)]
    simp [List.getElem?_replicate, hi]

/-- C3, evaluated at arity 2. The callable `boxToFunction` returns is the loaded code
address cast to a pointer to a non-variadic function type returning a generic box
with three parameters, but the parameters are (generic box, generic box,
environment): position 0 is the generic box type and the environment type is at
position 2, the two types being different. -/
theorem boxToFunction_signature_at_arity_two :
    (sampleHelpers.boxToFunction (Value.param 0) 2 IRBuilder.start).1
      = Value.bitcast (Value.inst 2)
          (TypePtr.ptr (TypePtr.func (TypePtr.ptr (TypePtr.struct "box"))
            [TypePtr.ptr (TypePtr.struct "box"), TypePtr.ptr (TypePtr.struct "box"),
             TypePtr.ptr (TypePtr.ptr (TypePtr.ptr (TypePtr.struct "box")))] false))
    ∧ (sampleHelpers.argumentsTypes 2)[0]? = some sampleHelpers.boxPtrTy
    ∧ (sampleHelpers.argumentsTypes 2)[2]? = some sampleHelpers.environmentTy
    ∧ sampleHelpers.boxPtrTy ≠ sampleHelpers.environmentTy := by
  refine ⟨rfl, rfl, rfl, ?_⟩
  simp [LLVMHelpers.boxPtrTy, LLVMHelpers.environmentTy, sampleHelpers]

/-- Whatever the kind asked for, `forceBoxType` returns its operand and leaves the
builder untouched. -/
theorem forceBoxType_emits_nothing (h : LLVMHelpers) (kind : BoxType) (value : Value)
    (b : IRBuilder) : h.forceBoxType kind value b = (value, b) := rfl

/-- C1, evaluated on a Function box. `forceBoxType` leaves the builder as it found
it, so `boxToDouble` emits a single load and nothing else; run on the box that
`functionToBox` built, whose discriminant is that of `Function` and not that of
`Double`, the code reaches the end of the block with `castelMalloc` as the only call
made: the trap primitive is not invoked. -/
theorem boxToDouble_on_function_box_does_not_trap :
    sampleHelpers.forceBoxType BoxType.Double (Value.param 0) IRBuilder.start
      = (Value.param 0, IRBuilder.start)
    ∧ (sampleHelpers.boxToDouble (Value.param 0) IRBuilder.start).2.currentCode
      = [Instr.load 0 (Value.gep (Value.bitcast (Value.param 0)
          (TypePtr.ptr (TypePtr.struct "box.double"))) [0, 1])]
    ∧ sampleHelpers.boxType BoxType.Function ≠ sampleHelpers.boxType BoxType.Double
    ∧ ∃ m, execute sampleRuntime
          (sampleHelpers.boxToDouble
            (sampleHelpers.functionToBox ⟨"closure", 3⟩ Value.null IRBuilder.start).1
            (sampleHelpers.functionToBox ⟨"closure", 3⟩ Value.null IRBuilder.start).2).2
          emptyMachine = Outcome.fellThrough 0 m
        ∧ m.mem.load 0 0 = some (RVal.int 7)
        ∧ m.calls = [("castelMalloc", [RVal.int 24])] := by
  refine ⟨rfl, rfl, ?_, ?_⟩
  · simp [LLVMHelpers.boxType, sampleHelpers, sampleTypeCode, APInt, toUInt64]
  · refine ⟨_, rfl, ?_, ?_⟩
    · decide
    · decide

/-- C10 as stated fails: on the context of the sample module, where the aggregates
`box`, `box.function` and `box.double` are registered and none is named `Box`, the
registry lookup does not fail; it returns the null descriptor to its caller, for the
generic box and for the box class `Function` alike. -/
theorem lookup_miss_yields_null_descriptor :
    sampleModule.context.namedStructTypes.contains "Box" = false
    ∧ TypeBuilder_Box_get sampleModule.context = TypePtr.null
    ∧ gen_helper_type BoxType.Function sampleModule.context = TypePtr.null :=
  ⟨by decide, rfl, rfl⟩

/-- C10, amended. For every context in which no aggregate named `Box` is registered
and for every box kind, the registry lookup returns the null descriptor to its
caller: `TypeBuilder< castel::runtime::Box >::get` hands back the result of
`getTypeByName` as it is, and every box class goes through it. -/
theorem registry_lookup_miss_returns_null (context : LLVMContext) (kind : BoxType)
    (hmiss : context.namedStructTypes.contains "Box" = false) :
    TypeBuilder_Box_get context = TypePtr.null
    ∧ gen_helper_type kind context = TypePtr.null := by
  have hget : TypeBuilder_Box_get context = TypePtr.null := by
    simp only [TypeBuilder_Box_get, Module.getTypeByName, hmiss]
    rfl
  exact ⟨hget, hget⟩

/-- Witness of the amended C10: a context with no aggregate at all, kind `Double`. -/
theorem registry_lookup_miss_returns_null_witness :
    ({ namedStructTypes := [] } : LLVMContext).namedStructTypes.contains "Box" = false
    ∧ TypeBuilder_Box_get { namedStructTypes := [] } = TypePtr.null
    ∧ gen_helper_type BoxType.Double { namedStructTypes := [] } = TypePtr.null :=
  ⟨by decide, registry_lookup_miss_returns_null { namedStructTypes := [] } BoxType.Double
    (by decide)⟩

/-! ## Execution: what the emitted code does -/

end Castel
